import Mathlib

/-!
Shallow embedding of the SPIFFE certificate validator
(`source/extensions/transport_sockets/tls/cert_validator/spiffe/spiffe_validator.{h,cc}`).

Certificates, X509 stores and the snapshot (`SpiffeData`) are modelled as
explicit data; the external BoringSSL path-validation machinery
(`X509_STORE_CTX_init` / `X509_verify_cert`) is modelled as an abstract
environment of oracles, since it is an external collaborator of this core.
Machine strings are Lean `String`s; the `flat_hash_map` of trust-bundle
stores is an association list with unique keys, looked up by `storeFind`.
-/

namespace Spiffe

/-- One GENERAL_NAME entry of a certificate's Subject Alternative Name
extension: either a GEN_URI entry carrying a string value, or an entry of
some other type (GEN_DNS, GEN_EMAIL, ...), abstracted as a tag plus value. -/
inductive GeneralName where
  | uri (value : String)
  | other (tag : Nat) (value : String)
  deriving DecidableEq

/-- The two key-usage bits this validator reads (`KU_KEY_CERT_SIGN`,
`KU_CRL_SIGN`). -/
structure KeyUsage where
  certSign : Bool
  crlSign : Bool
  deriving DecidableEq

/-- An X509 certificate, keeping exactly the observations the validator
makes of one: the decoded SAN extension (`X509_get_ext_d2i` with
`NID_subject_alt_name`, `none` when the certificate has no SAN extension),
the `EXFLAG_CA` basic-constraints flag, the key-usage extension (`none`
when absent: `X509_get_key_usage` then reports every usage as granted),
and the result of `Utility::getDaysUntilExpiration` (`none` when the
expiration cannot be computed). -/
structure Cert where
  sans : Option (List GeneralName)
  extCA : Bool
  keyUsage : Option KeyUsage
  daysUntilExpiration : Option Nat
  deriving DecidableEq

/-- X509_get_key_usage bit KU_KEY_CERT_SIGN: an absent key-usage extension
reports all bits set. -/
def kuCertSign (c : Cert) : Bool :=
  match c.keyUsage with
  | none => true
  | some k => k.certSign

/-- X509_get_key_usage bit KU_CRL_SIGN: an absent key-usage extension
reports all bits set. -/
def kuCrlSign (c : Cert) : Bool :=
  match c.keyUsage with
  | none => true
  | some k => k.crlSign

/-- An X509_STORE: the certificates added by `X509_STORE_add_cert`, the
CRLs added by `X509_STORE_add_crl` (abstracted as identifiers), and
whether `X509_V_FLAG_CRL_CHECK | X509_V_FLAG_CRL_CHECK_ALL` was set. -/
structure X509Store where
  certs : List Cert
  crls : List Nat
  crlCheckFlags : Bool
  deriving DecidableEq

/-- A freshly created store (`X509_STORE_new`). -/
def emptyStore : X509Store := ⟨[], [], false⟩

/-- The `SpiffeData` snapshot: trust-domain → store mapping (association
list with unique keys, mirroring the `flat_hash_map`) plus the flattened
`ca_certs` list.  The two metadata scalars of the C++ struct
(`spiffe_refresh_hint`, `spiffe_sequence`) are never read by any modelled
operation and are omitted. -/
structure SpiffeData where
  trust_bundle_stores : List (String × X509Store)
  ca_certs : List Cert
  deriving DecidableEq

/-- Lookup in the trust-domain mapping (`flat_hash_map::find`): the first
entry whose key equals `k`. -/
def storeFind (k : String) : List (String × X509Store) → Option X509Store
  | [] => none
  | (n, s) :: rest => if n = k then some s else storeFind k rest

/-- The characters of the literal `"spiffe://"` against which
`absl::StartsWith` compares. -/
def spiffePfx : List Char := "spiffe://".data

/-- SPIFFEValidator::extractTrustDomain: empty result unless the input
starts with `spiffe://`; otherwise everything after the prefix up to (and
excluding) the first later `/`, or to the end when there is none. -/
def extractTrustDomain (san : String) : String :=
  if spiffePfx.isPrefixOf san.data then
    let rest := san.data.drop spiffePfx.length
    match rest.findIdx? (fun c => c == '/') with
    | none => ⟨rest⟩
    | some pos => ⟨rest.take pos⟩
  else ""

/-- SPIFFEValidator::certificatePrecheck: reject a leaf whose
basic-constraints mark it a CA, or whose key usage grants cert- or
CRL-signing. -/
def certificatePrecheck (leaf_cert : Cert) : Bool :=
  if leaf_cert.extCA then false
  else !(kuCrlSign leaf_cert || kuCertSign leaf_cert)

/-- Value of the first GEN_URI entry of a SAN list (the loop in
`getTrustBundleStore` breaks after the first GEN_URI). -/
def firstUriSan : List GeneralName → Option String
  | [] => none
  | .uri v :: _ => some v
  | .other _ _ :: rest => firstUriSan rest

/-- SPIFFEValidator::getTrustBundleStore: decode the leaf's SAN extension
(absent → no store); take the trust domain extracted from the first
GEN_URI entry (no GEN_URI → the initial empty string); empty domain → no
store; otherwise look the domain up in the snapshot's mapping. -/
def getTrustBundleStore (snap : SpiffeData) (leaf_cert : Cert) : Option X509Store :=
  match leaf_cert.sans with
  | none => none
  | some names =>
    let trust_domain :=
      match firstUriSan names with
      | none => ""
      | some v => extractTrustDomain v
    if trust_domain = "" then none
    else storeFind trust_domain snap.trust_bundle_stores

/-- SPIFFEValidator::matchSubjectAltName: some SAN entry of the leaf (any
type) satisfies some configured matcher.  A matcher is its `match`
predicate over a GENERAL_NAME.  Iterating a null SAN stack visits no
entries, hence the `getD []`. -/
def matchSubjectAltName (matchers : List (GeneralName → Bool)) (leaf_cert : Cert) : Bool :=
  (leaf_cert.sans.getD []).any (fun g => matchers.any (fun m => m g))

/-- Oracles for the external X509 path-validation machinery:
`initOk` models `X509_STORE_CTX_init && X509_VERIFY_PARAM_set1` succeeding,
`pathOk` models the `X509_verify_cert` outcome (third argument: whether
expired certificates are tolerated for this context), and `pathErrInfo`
models `Utility::getX509VerificationErrorInfo`. -/
structure X509Env where
  initOk : X509Store → List Cert → Bool
  pathOk : X509Store → List Cert → Bool → Bool
  pathErrInfo : X509Store → List Cert → String

/-- Outcome of `verifyCertChainUsingTrustBundleStore`: the returned bool,
the `error_details` out-parameter, and how many times each of the two
failure counters (`fail_verify_error_`, `fail_verify_san_`) was
incremented. -/
structure VerifyOutcome where
  ok : Bool
  error_details : String
  failVerifyErrorInc : Nat
  failVerifySanInc : Nat
  deriving DecidableEq

/-- The part of SPIFFEValidator::verifyCertChainUsingTrustBundleStore after
the trust-bundle store has been selected: context setup, path validation,
then SAN-matcher policy. -/
def verifyWithStore (env : X509Env) (allowExpired : Bool)
    (matchers : List (GeneralName → Bool)) (leaf_cert : Cert)
    (cert_chain : List Cert) (store : X509Store) : VerifyOutcome :=
  if !env.initOk store cert_chain then
    ⟨false, "verify cert failed: init and setup X509_STORE_CTX", 1, 0⟩
  else if !env.pathOk store cert_chain allowExpired then
    ⟨false, "verify cert failed: " ++ env.pathErrInfo store cert_chain, 1, 0⟩
  else
    let san_match := if matchers.isEmpty then true else matchSubjectAltName matchers leaf_cert
    if san_match then ⟨true, "", 0, 0⟩
    else ⟨false, "verify cert failed: SAN match", 0, 1⟩

/-- SPIFFEValidator::verifyCertChainUsingTrustBundleStore: leaf precheck,
trust-bundle store selection, then path validation and SAN policy. -/
def verifyCertChainUsingTrustBundleStore (env : X509Env) (allowExpired : Bool)
    (matchers : List (GeneralName → Bool)) (snap : SpiffeData)
    (leaf_cert : Cert) (cert_chain : List Cert) : VerifyOutcome :=
  if !certificatePrecheck leaf_cert then
    ⟨false, "verify cert failed: cert precheck", 1, 0⟩
  else
    match getTrustBundleStore snap leaf_cert with
    | none => ⟨false, "verify cert failed: no trust bundle store", 1, 0⟩
    | some store => verifyWithStore env allowExpired matchers leaf_cert cert_chain store

/-- Validation status of `ValidationResults`. -/
inductive ValidationStatus where
  | Successful
  | Failed
  deriving DecidableEq

/-- The observable result of SPIFFEValidator::doVerifyCertChain: status,
the optional diagnostic string, and the two counter increments. -/
structure ValidationResults where
  status : ValidationStatus
  error_details : Option String
  failVerifyErrorInc : Nat
  failVerifySanInc : Nat
  deriving DecidableEq

/-- SPIFFEValidator::doVerifyCertChain: empty chain fails outright;
otherwise the first certificate is the leaf and the outcome is that of
`verifyCertChainUsingTrustBundleStore` on the whole chain. -/
def doVerifyCertChain (env : X509Env) (allowExpired : Bool)
    (matchers : List (GeneralName → Bool)) (snap : SpiffeData) :
    List Cert → ValidationResults
  | [] => ⟨.Failed, some "verify cert failed: empty cert chain", 1, 0⟩
  | leaf_cert :: rest =>
    let r := verifyCertChainUsingTrustBundleStore env allowExpired matchers snap
      leaf_cert (leaf_cert :: rest)
    if r.ok then ⟨.Successful, none, r.failVerifyErrorInc, r.failVerifySanInc⟩
    else ⟨.Failed, some r.error_details, r.failVerifyErrorInc, r.failVerifySanInc⟩

/-- The sentinel `std::numeric_limits of uint32_t ::max()`. -/
def UINT32_MAX : Nat := 2 ^ 32 - 1

/-- The loop body of SPIFFEValidator::daysUntilFirstCertExpires: running
minimum starting at `ret`, bailing out with `none` as soon as a
certificate's expiration cannot be computed. -/
def minDaysLoop : List Cert → Nat → Option Nat
  | [], ret => some ret
  | c :: rest, ret =>
    match c.daysUntilExpiration with
    | none => none
    | some t => minDaysLoop rest (if t < ret then t else ret)

/-- SPIFFEValidator::daysUntilFirstCertExpires: the sentinel for an empty
CA list, otherwise the running minimum over all CA certificates. -/
def daysUntilFirstCertExpires (snap : SpiffeData) : Option Nat :=
  if snap.ca_certs.isEmpty then some UINT32_MAX
  else minDaysLoop snap.ca_certs UINT32_MAX

/-! ### Bundle-map loader (SPIFFEValidator::loadTrustBundleMap) -/

/-- One member of a domain object's `keys` array: the `use` string and the
`x5c` array of base64-encoded DER certificates. -/
structure KeyObject where
  use : String
  x5c : List String
  deriving DecidableEq

/-- One domain object of the bundle map: its `keys` array (absent `keys`
is the empty array). -/
structure DomainObject where
  keys : List KeyObject
  deriving DecidableEq

/-- The parsed JSON bundle-map document: the `trust_domains` object as an
ordered list of (domain name, domain object) members, in document order
(a missing `trust_domains` member is the empty list). -/
structure BundleDoc where
  trust_domains : List (String × DomainObject)
  deriving DecidableEq

/-- Accumulator of the load: the stores built so far and the flattened
`ca_certs` list. -/
structure LoadState where
  trust_bundle_stores : List (String × X509Store)
  ca_certs : List Cert
  deriving DecidableEq

/-- X509_STORE_add_cert on the store registered under `name`. -/
def storeAddCert (stores : List (String × X509Store)) (name : String) (c : Cert) :
    List (String × X509Store) :=
  stores.map (fun p => if p.1 = name then (p.1, ⟨p.2.certs ++ [c], p.2.crls, p.2.crlCheckFlags⟩) else p)

/-- Value of the first GEN_URI SAN entry starting with `spiffe://` (the
loader's inner loop skips non-URI entries and URI entries without the
prefix, and breaks at the first qualifying one). -/
def firstSpiffeUri : List GeneralName → Option String
  | [] => none
  | .uri v :: rest => if spiffePfx.isPrefixOf v.data then some v else firstSpiffeUri rest
  | .other _ _ :: rest => firstSpiffeUri rest

/-- Processing of one `x5c` entry under domain `name`: decode and parse
the certificate (`dec` folds `Base64::decode` yielding empty bytes and a
failing `d2i_X509` into `none` — both abort the load); scan its SAN
entries for the first `spiffe://` URI; a certificate without one is
silently skipped; a qualifying URI whose extracted domain differs from
`name` aborts the load; otherwise the certificate is added to the domain's
store and to the flattened CA list. -/
def processCert (dec : String → Option Cert) (name : String) (st : LoadState)
    (b64 : String) : Except Unit LoadState :=
  match dec b64 with
  | none => .error ()
  | some x509 =>
    match x509.sans with
    | none => .ok st
    | some names =>
      match firstSpiffeUri names with
      | none => .ok st
      | some v =>
        if name ≠ extractTrustDomain v then .error ()
        else .ok ⟨storeAddCert st.trust_bundle_stores name x509, st.ca_certs ++ [x509]⟩

/-- Fold of `processCert` over an `x5c` array, aborting at the first
error. -/
def processCerts (dec : String → Option Cert) (name : String) :
    LoadState → List String → Except Unit LoadState
  | st, [] => .ok st
  | st, b :: rest =>
    match processCert dec name st b with
    | .error e => .error e
    | .ok st1 => processCerts dec name st1 rest

/-- Fold over a domain's `keys` array: only keys whose `use` equals
`x509-svid` are consumed. -/
def processKeys (dec : String → Option Cert) (name : String) :
    LoadState → List KeyObject → Except Unit LoadState
  | st, [] => .ok st
  | st, k :: rest =>
    if k.use = "x509-svid" then
      match processCerts dec name st k.x5c with
      | .error e => .error e
      | .ok st1 => processKeys dec name st1 rest
    else processKeys dec name st rest

/-- Processing of one `trust_domains` member: on a repeated domain key the
existing store is reused (duplicate warning, no failure), otherwise a
fresh store is registered; an empty `keys` array aborts the load;
otherwise the keys are processed in order. -/
def processDomain (dec : String → Option Cert) (st : LoadState) (name : String)
    (dobj : DomainObject) : Except Unit LoadState :=
  let st1 : LoadState :=
    if (storeFind name st.trust_bundle_stores).isSome then st
    else ⟨st.trust_bundle_stores ++ [(name, emptyStore)], st.ca_certs⟩
  if dobj.keys.isEmpty then .error ()
  else processKeys dec name st1 dobj.keys

/-- The `trust_domains->iterate` loop: members in document order, aborting
at the first error. -/
def processDomains (dec : String → Option Cert) :
    LoadState → List (String × DomainObject) → Except Unit LoadState
  | st, [] => .ok st
  | st, (name, dobj) :: rest =>
    match processDomain dec st name dobj with
    | .error e => .error e
    | .ok st1 => processDomains dec st1 rest

/-- SPIFFEValidator::loadTrustBundleMap: `doc` is the parsed JSON document
(`none` models a file that cannot be opened or JSON that fails to parse);
a missing or empty `trust_domains` object fails the load; any error during
domain processing fails the whole load (no snapshot); otherwise the
accumulated stores and CA list form the new snapshot. -/
def loadTrustBundleMap (dec : String → Option Cert) (doc : Option BundleDoc) :
    Option SpiffeData :=
  match doc with
  | none => none
  | some d =>
    if d.trust_domains.isEmpty then none
    else
      match processDomains dec ⟨[], []⟩ d.trust_domains with
      | .error _ => none
      | .ok st => some ⟨st.trust_bundle_stores, st.ca_certs⟩

/-- The watch callback installed by
SPIFFEValidator::initializeCertificateRefresh: re-run the loader; install
the new snapshot only when the load succeeded, otherwise keep the current
one. -/
def onBundleMapFileChanged (dec : String → Option Cert) (doc : Option BundleDoc)
    (current : SpiffeData) : SpiffeData :=
  match loadTrustBundleMap dec doc with
  | some newData => newData
  | none => current

/-! ### Static trust-domain-list constructor path -/

/-- One entry of a `PEM_X509_INFO_read_bio` result: a certificate or a CRL
(abstracted as an identifier). -/
inductive PemItem where
  | certEntry (c : Cert)
  | crlEntry (id : Nat)
  deriving DecidableEq

/-- One member of the configured `trust_domains` list: the domain name and
its trust-bundle data source, abstracted as a string descriptor. -/
structure TrustDomainCfg where
  name : String
  trust_bundle : String
  deriving DecidableEq

/-- Validator state built by the static constructor path: the mapping, the
flattened CA list and the `ca_file_name_` member. -/
structure StaticState where
  trust_bundle_stores : List (String × X509Store)
  ca_certs : List Cert
  ca_file_name : String
  deriving DecidableEq

/-- Certificate entries of a PEM item list, in order. -/
def pemCerts (items : List PemItem) : List Cert :=
  items.filterMap (fun i => match i with | .certEntry c => some c | .crlEntry _ => none)

/-- CRL entries of a PEM item list, in order. -/
def pemCrls (items : List PemItem) : List Nat :=
  items.filterMap (fun i => match i with | .certEntry _ => none | .crlEntry id => some id)

/-- The store built for one static domain: its certificates and CRLs, with
CRL checking enforced when the domain contributed at least one CRL. -/
def domainStore (items : List PemItem) : X509Store :=
  ⟨pemCerts items, pemCrls items, !(pemCrls items).isEmpty⟩

/-- Effect of one successfully parsed static domain: register its store,
extend the flattened CA list, and (when the domain contributed at least
one certificate) overwrite `ca_file_name_` with this domain's descriptor
(`ca_loaded` is reset for every domain in the C++ loop). -/
def staticAddDomain (st : StaticState) (d : TrustDomainCfg) (items : List PemItem) :
    StaticState :=
  ⟨st.trust_bundle_stores ++ [(d.name, domainStore items)],
   st.ca_certs ++ pemCerts items,
   if (pemCerts items).isEmpty then st.ca_file_name
   else d.name ++ ": " ++ d.trust_bundle⟩

/-- The static-mode loop of the SPIFFEValidator constructor: for each
configured domain, throw on a duplicate name; read and PEM-parse its
source (`readPem` returning `none` models a failing read or parse, and an
empty item list is also fatal); otherwise accumulate.  `Except.error` is a
thrown `EnvoyException`: construction aborts and no snapshot is
produced. -/
def buildStaticGo (readPem : String → Option (List PemItem)) :
    StaticState → List TrustDomainCfg → Except String StaticState
  | st, [] => .ok st
  | st, d :: rest =>
    if (storeFind d.name st.trust_bundle_stores).isSome then
      .error ("Multiple trust bundles are given for one trust domain for " ++ d.name)
    else
      match readPem d.trust_bundle with
      | none => .error ("Failed to load trusted CA certificate for " ++ d.name)
      | some items =>
        if items.isEmpty then
          .error ("Failed to load trusted CA certificate for " ++ d.name)
        else buildStaticGo readPem (staticAddDomain st d items) rest

/-- The static trust-domain-list constructor path, starting from an empty
validator state. -/
def buildStaticTrustBundle (readPem : String → Option (List PemItem))
    (domains : List TrustDomainCfg) : Except String StaticState :=
  buildStaticGo readPem ⟨[], [], ""⟩ domains

/-! ### Theorems -/

/-- An environment whose context setup and path validation always
succeed; used to instantiate universally quantified theorems at concrete
inputs. -/
def trivialEnv : X509Env :=
  ⟨fun _ _ => true, fun _ _ _ => true, fun _ _ => ""⟩

/-- C2: extractTrustDomain returns the empty string when the input does
not start with `spiffe://`; otherwise, with no `/` after the prefix it
returns everything after the prefix, and with one it returns the substring
strictly between the prefix and the first such `/`; and the three concrete
examples of the spec hold. -/
theorem extractTrustDomain_spec (s : String) :
    ((¬ ∃ rest, s.data = spiffePfx ++ rest) → extractTrustDomain s = "") ∧
    (∀ rest, s.data = spiffePfx ++ rest →
      (('/' ∉ rest) → extractTrustDomain s = ⟨rest⟩) ∧
      (∀ d t, rest = d ++ '/' :: t → '/' ∉ d → extractTrustDomain s = ⟨d⟩)) ∧
    extractTrustDomain "spiffe://example.org/svc" = "example.org" ∧
    extractTrustDomain "spiffe://example.org" = "example.org" ∧
    extractTrustDomain "https://example.org" = "" := by
  refine ⟨?_, ?_, by decide, by decide, by decide⟩
  · intro h
    have hcond : ¬ (spiffePfx.isPrefixOf s.data = true) := by
      intro hp
      rw [List.isPrefixOf_iff_prefix] at hp
      obtain ⟨t, ht⟩ := hp
      exact h ⟨t, ht.symm⟩
    simp only [extractTrustDomain]
    rw [if_neg hcond]
  · intro rest hrest
    have hcond : spiffePfx.isPrefixOf s.data = true := by
      rw [List.isPrefixOf_iff_prefix, hrest]
      exact List.prefix_append _ _
    have hdrop : s.data.drop spiffePfx.length = rest := by
      rw [hrest]; exact List.drop_left _ _
    constructor
    · intro hno
      have hfind : rest.findIdx? (fun c => c == '/') = none := by
        rw [List.findIdx?_eq_none_iff]
        intro x hx
        simp only [beq_eq_false_iff_ne]
        intro he; exact hno (he ▸ hx)
      simp only [extractTrustDomain]
      rw [if_pos hcond]
      simp only [hdrop, hfind]
    · intro d t hdt hnd
      have hfind : rest.findIdx? (fun c => c == '/') = some d.length := by
        have h1 : d.findIdx? (fun c => c == '/') = none := by
          rw [List.findIdx?_eq_none_iff]
          intro x hx
          simp only [beq_eq_false_iff_ne]
          intro he; exact hnd (he ▸ hx)
        rw [hdt, List.findIdx?_append, h1]
        simp
      simp only [extractTrustDomain]
      rw [if_pos hcond]
      simp only [hdrop, hfind]
      rw [hdt, List.take_left]

/-- C2 witness: the general prefixed case of `extractTrustDomain_spec`
instantiated at `spiffe://example.org/svc`. -/
theorem extractTrustDomain_spec_witness :
    extractTrustDomain "spiffe://example.org/svc" = ⟨"example.org".data⟩ :=
  ((extractTrustDomain_spec "spiffe://example.org/svc").2.1
      "example.org/svc".data (by decide)).2
    "example.org".data "svc".data (by decide) (by decide)

/-- C3: a leaf marked CA by its basic-constraints extension, or whose
key-usage extension grants certificate- or CRL-signing, fails verification
with diagnostic "verify cert failed: cert precheck" and a general
verification-error counter increment, for every environment, snapshot,
matcher list and chain tail — so the outcome is independent of path
validity and of the configured trust domains. -/
theorem precheck_rejects_ca_or_signing_leaf (env : X509Env) (ae : Bool)
    (matchers : List (GeneralName → Bool)) (snap : SpiffeData)
    (leaf : Cert) (rest : List Cert)
    (h : leaf.extCA = true ∨
         ∃ ku, leaf.keyUsage = some ku ∧ (ku.certSign = true ∨ ku.crlSign = true)) :
    doVerifyCertChain env ae matchers snap (leaf :: rest) =
      ⟨.Failed, some "verify cert failed: cert precheck", 1, 0⟩ := by
  have hpc : certificatePrecheck leaf = false := by
    unfold certificatePrecheck
    rcases h with h | ⟨ku, hku, hbit⟩
    · simp [h]
    · simp only [kuCrlSign, kuCertSign, hku]
      rcases hbit with h1 | h1 <;> simp [h1]
  simp [doVerifyCertChain, verifyCertChainUsingTrustBundleStore, hpc]

/-- C3 witness: a concrete CA-flagged leaf rejected by the precheck. -/
theorem precheck_rejects_witness :
    doVerifyCertChain trivialEnv false [] ⟨[], []⟩
        [⟨none, true, some ⟨false, false⟩, none⟩] =
      ⟨.Failed, some "verify cert failed: cert precheck", 1, 0⟩ :=
  precheck_rejects_ca_or_signing_leaf trivialEnv false [] ⟨[], []⟩
    ⟨none, true, some ⟨false, false⟩, none⟩ [] (Or.inl rfl)

/-- C9: whenever getTrustBundleStore returns a store, the leaf has a SAN
extension whose first GEN_URI entry extracts to a non-empty trust domain —
so the SAN-decoding branch of matchSubjectAltName that would trip the
assertion (a null SAN stack) is unreachable after store selection
succeeded. -/
theorem matchSubjectAltName_assert_unreachable (snap : SpiffeData)
    (leaf : Cert) (store : X509Store)
    (h : getTrustBundleStore snap leaf = some store) :
    ∃ names, leaf.sans = some names ∧
      ∃ v, firstUriSan names = some v ∧ extractTrustDomain v ≠ "" := by
  unfold getTrustBundleStore at h
  cases hsans : leaf.sans with
  | none => rw [hsans] at h; cases h
  | some names =>
    rw [hsans] at h
    cases hf : firstUriSan names with
    | none => simp [hf] at h
    | some v =>
      simp only [hf] at h
      by_cases he : extractTrustDomain v = ""
      · rw [if_pos he] at h; cases h
      · exact ⟨names, rfl, v, hf, he⟩

/-- C9 witness: `matchSubjectAltName_assert_unreachable` at a concrete
snapshot and leaf for which the store lookup succeeds. -/
theorem matchSubjectAltName_assert_unreachable_witness :
    ∃ names,
      (Cert.mk (some [.uri "spiffe://example.org/svc"]) false (some ⟨false, false⟩) none).sans
        = some names ∧
      ∃ v, firstUriSan names = some v ∧ extractTrustDomain v ≠ "" :=
  matchSubjectAltName_assert_unreachable
    ⟨[("example.org", emptyStore)], []⟩
    ⟨some [.uri "spiffe://example.org/svc"], false, some ⟨false, false⟩, none⟩
    emptyStore (by decide)

/-- C10: a precheck-passing leaf whose first GEN_URI SAN extracts to the
empty trust domain (for instance `spiffe://` or `spiffe:///path`) is
rejected with "verify cert failed: no trust bundle store" for every
snapshot — in particular one whose mapping contains an empty-string key —
because the empty-domain check precedes the mapping lookup, and only the
first GEN_URI entry is ever examined. -/
theorem empty_trust_domain_always_rejected (env : X509Env) (ae : Bool)
    (matchers : List (GeneralName → Bool)) (snap : SpiffeData)
    (leaf : Cert) (rest : List Cert) (names : List GeneralName) (v : String)
    (hpre : certificatePrecheck leaf = true)
    (hsans : leaf.sans = some names)
    (hfirst : firstUriSan names = some v)
    (hempty : extractTrustDomain v = "") :
    getTrustBundleStore snap leaf = none ∧
    doVerifyCertChain env ae matchers snap (leaf :: rest) =
      ⟨.Failed, some "verify cert failed: no trust bundle store", 1, 0⟩ := by
  have hg : getTrustBundleStore snap leaf = none := by
    simp [getTrustBundleStore, hsans, hfirst, hempty]
  refine ⟨hg, ?_⟩
  simp [doVerifyCertChain, verifyCertChainUsingTrustBundleStore, hpre, hg]

/-- C10 witness: a leaf whose first URI SAN is `spiffe:///path` is
rejected even though the snapshot maps both the empty string and the
domain of a later URI SAN. -/
theorem empty_trust_domain_always_rejected_witness :
    getTrustBundleStore
        ⟨[("", emptyStore), ("good.org", emptyStore)], []⟩
        ⟨some [.uri "spiffe:///path", .uri "spiffe://good.org/x"], false,
          some ⟨false, false⟩, none⟩ = none ∧
    doVerifyCertChain trivialEnv false []
        ⟨[("", emptyStore), ("good.org", emptyStore)], []⟩
        [⟨some [.uri "spiffe:///path", .uri "spiffe://good.org/x"], false,
          some ⟨false, false⟩, none⟩] =
      ⟨.Failed, some "verify cert failed: no trust bundle store", 1, 0⟩ :=
  empty_trust_domain_always_rejected trivialEnv false []
    ⟨[("", emptyStore), ("good.org", emptyStore)], []⟩
    ⟨some [.uri "spiffe:///path", .uri "spiffe://good.org/x"], false,
      some ⟨false, false⟩, none⟩
    [] [.uri "spiffe:///path", .uri "spiffe://good.org/x"] "spiffe:///path"
    (by decide) rfl rfl (by decide)

/-- The trust domain getTrustBundleStore derives for a leaf: the extraction
applied to the first GEN_URI SAN entry, the empty string when the SAN
extension or a GEN_URI entry is absent. -/
def leafTrustDomain (leaf : Cert) : String :=
  match leaf.sans with
  | none => ""
  | some names =>
    match firstUriSan names with
    | none => ""
    | some v => extractTrustDomain v

/-- getTrustBundleStore phrased through `leafTrustDomain`. -/
theorem getTrustBundleStore_eq (snap : SpiffeData) (leaf : Cert) :
    getTrustBundleStore snap leaf =
      if leaf.sans = none then none
      else if leafTrustDomain leaf = "" then none
      else storeFind (leafTrustDomain leaf) snap.trust_bundle_stores := by
  cases hsans : leaf.sans with
  | none => simp [getTrustBundleStore, leafTrustDomain, hsans]
  | some names =>
    cases hf : firstUriSan names with
    | none => simp [getTrustBundleStore, leafTrustDomain, hsans, hf]
    | some v => simp [getTrustBundleStore, leafTrustDomain, hsans, hf]

/-- C4: for a precheck-passing leaf, an absent SAN extension, an empty
extracted trust domain, or a domain absent from the snapshot's mapping
each yield Failed with "verify cert failed: no trust bundle store" (and a
general verification-error counter increment); otherwise the verification
outcome is exactly the store-parameterised pipeline run against that
domain's store. -/
theorem no_trust_bundle_store_spec (env : X509Env) (ae : Bool)
    (matchers : List (GeneralName → Bool)) (snap : SpiffeData)
    (leaf : Cert) (rest : List Cert)
    (hpre : certificatePrecheck leaf = true) :
    ((leaf.sans = none ∨ leafTrustDomain leaf = "" ∨
        storeFind (leafTrustDomain leaf) snap.trust_bundle_stores = none) →
      doVerifyCertChain env ae matchers snap (leaf :: rest) =
        ⟨.Failed, some "verify cert failed: no trust bundle store", 1, 0⟩) ∧
    (∀ store, leaf.sans ≠ none → leafTrustDomain leaf ≠ "" →
      storeFind (leafTrustDomain leaf) snap.trust_bundle_stores = some store →
      doVerifyCertChain env ae matchers snap (leaf :: rest) =
        (let r := verifyWithStore env ae matchers leaf (leaf :: rest) store
         if r.ok then ⟨.Successful, none, r.failVerifyErrorInc, r.failVerifySanInc⟩
         else ⟨.Failed, some r.error_details, r.failVerifyErrorInc, r.failVerifySanInc⟩)) := by
  constructor
  · intro h
    have hg : getTrustBundleStore snap leaf = none := by
      rw [getTrustBundleStore_eq]
      by_cases hs : leaf.sans = none
      · rw [if_pos hs]
      · by_cases hd : leafTrustDomain leaf = ""
        · rw [if_neg hs, if_pos hd]
        · rcases h with h | h | h
          · exact absurd h hs
          · exact absurd h hd
          · rw [if_neg hs, if_neg hd, h]
    simp [doVerifyCertChain, verifyCertChainUsingTrustBundleStore, hpre, hg]
  · intro store hs hd hfind
    have hg : getTrustBundleStore snap leaf = some store := by
      rw [getTrustBundleStore_eq, if_neg hs, if_neg hd, hfind]
    simp [doVerifyCertChain, verifyCertChainUsingTrustBundleStore, hpre, hg]

/-- C4 witness: a precheck-passing leaf without a SAN extension is
rejected with "no trust bundle store". -/
theorem no_trust_bundle_store_spec_witness :
    doVerifyCertChain trivialEnv false [] ⟨[("example.org", emptyStore)], []⟩
        [⟨none, false, some ⟨false, false⟩, none⟩] =
      ⟨.Failed, some "verify cert failed: no trust bundle store", 1, 0⟩ :=
  (no_trust_bundle_store_spec trivialEnv false [] ⟨[("example.org", emptyStore)], []⟩
      ⟨none, false, some ⟨false, false⟩, none⟩ [] (by decide)).1 (Or.inl rfl)

/-- C5: once the precheck, the store selection, the context setup and path
validation have succeeded: an empty matcher list accepts unconditionally;
a non-empty one accepts exactly when some SAN entry of the leaf (of any
type) satisfies some matcher, and otherwise fails with "verify cert
failed: SAN match", incrementing the SAN-match failure counter and not the
general verification-error counter. -/
theorem san_matcher_policy (env : X509Env) (ae : Bool)
    (matchers : List (GeneralName → Bool)) (snap : SpiffeData)
    (leaf : Cert) (rest : List Cert) (store : X509Store)
    (hpre : certificatePrecheck leaf = true)
    (hstore : getTrustBundleStore snap leaf = some store)
    (hinit : env.initOk store (leaf :: rest) = true)
    (hpath : env.pathOk store (leaf :: rest) ae = true) :
    (matchers = [] →
      doVerifyCertChain env ae matchers snap (leaf :: rest) =
        ⟨.Successful, none, 0, 0⟩) ∧
    (matchers ≠ [] →
      ((∃ g ∈ leaf.sans.getD [], ∃ m ∈ matchers, m g = true) →
        doVerifyCertChain env ae matchers snap (leaf :: rest) =
          ⟨.Successful, none, 0, 0⟩) ∧
      ((¬ ∃ g ∈ leaf.sans.getD [], ∃ m ∈ matchers, m g = true) →
        doVerifyCertChain env ae matchers snap (leaf :: rest) =
          ⟨.Failed, some "verify cert failed: SAN match", 0, 1⟩)) := by
  have hiff : matchSubjectAltName matchers leaf = true ↔
      ∃ g ∈ leaf.sans.getD [], ∃ m ∈ matchers, m g = true := by
    simp [matchSubjectAltName, List.any_eq_true]
  constructor
  · intro hm
    simp [doVerifyCertChain, verifyCertChainUsingTrustBundleStore, hpre, hstore,
      verifyWithStore, hinit, hpath, hm]
  · intro hm
    have hne : matchers.isEmpty = false := by
      cases matchers with
      | nil => exact absurd rfl hm
      | cons a b => rfl
    constructor
    · intro hex
      have hmm : matchSubjectAltName matchers leaf = true := hiff.mpr hex
      simp [doVerifyCertChain, verifyCertChainUsingTrustBundleStore, hpre, hstore,
        verifyWithStore, hinit, hpath, hne, hmm]
    · intro hex
      have hmm : matchSubjectAltName matchers leaf = false := by
        cases hcase : matchSubjectAltName matchers leaf
        · rfl
        · exact absurd (hiff.mp hcase) hex
      simp [doVerifyCertChain, verifyCertChainUsingTrustBundleStore, hpre, hstore,
        verifyWithStore, hinit, hpath, hne, hmm]

/-- C5 witness: with no configured matcher, a leaf that passes precheck,
store selection and path validation verifies successfully. -/
theorem san_matcher_policy_witness :
    doVerifyCertChain trivialEnv false [] ⟨[("example.org", emptyStore)], []⟩
        [⟨some [.uri "spiffe://example.org/svc"], false, some ⟨false, false⟩, none⟩] =
      ⟨.Successful, none, 0, 0⟩ :=
  (san_matcher_policy trivialEnv false [] ⟨[("example.org", emptyStore)], []⟩
      ⟨some [.uri "spiffe://example.org/svc"], false, some ⟨false, false⟩, none⟩ []
      emptyStore (by decide) (by decide) rfl rfl).1 rfl

/-- The early-out of `minDaysLoop`: `none` exactly when some certificate's
expiration cannot be computed. -/
theorem minDaysLoop_eq_none_iff (l : List Cert) :
    ∀ r, minDaysLoop l r = none ↔ ∃ c ∈ l, c.daysUntilExpiration = none := by
  induction l with
  | nil => intro r; simp [minDaysLoop]
  | cons c rest ih =>
    intro r
    cases hc : c.daysUntilExpiration with
    | none =>
      simp only [minDaysLoop, hc]
      exact ⟨fun _ => ⟨c, List.mem_cons_self c rest, hc⟩, fun _ => trivial⟩
    | some t =>
      simp only [minDaysLoop, hc, ih]
      constructor
      · rintro ⟨x, hx, hnone⟩
        exact ⟨x, List.mem_cons_of_mem c hx, hnone⟩
      · rintro ⟨x, hx, hnone⟩
        rcases List.mem_cons.mp hx with rfl | hx2
        · rw [hc] at hnone; cases hnone
        · exact ⟨x, hx2, hnone⟩

/-- When every certificate's expiration is computable, `minDaysLoop`
returns the running minimum of the expirations and the initial value. -/
theorem minDaysLoop_min (l : List Cert) :
    ∀ r, (∀ c ∈ l, (c.daysUntilExpiration).isSome) →
    ∃ m, minDaysLoop l r = some m ∧
      (m = r ∨ ∃ c ∈ l, c.daysUntilExpiration = some m) ∧
      m ≤ r ∧
      (∀ c ∈ l, ∀ v, c.daysUntilExpiration = some v → m ≤ v) := by
  induction l with
  | nil =>
    intro r _
    exact ⟨r, rfl, Or.inl rfl, le_refl r, by simp⟩
  | cons c rest ih =>
    intro r hall
    obtain ⟨t, ht⟩ :=
      Option.isSome_iff_exists.mp (hall c (List.mem_cons_self _ _))
    obtain ⟨m, hm, hsrc, hle, hmin⟩ :=
      ih (if t < r then t else r) (fun x hx => hall x (List.mem_cons_of_mem _ hx))
    refine ⟨m, ?_, ?_, ?_, ?_⟩
    · simp only [minDaysLoop, ht]; exact hm
    · rcases hsrc with rfl | ⟨x, hx, hxv⟩
      · by_cases hlt : t < r
        · right
          exact ⟨c, List.mem_cons_self _ _, by rw [ht, if_pos hlt]⟩
        · left
          rw [if_neg hlt]
      · right; exact ⟨x, List.mem_cons_of_mem _ hx, hxv⟩
    · refine le_trans hle ?_
      by_cases hlt : t < r
      · rw [if_pos hlt]; exact le_of_lt hlt
      · rw [if_neg hlt]
    · intro x hx v hv
      rcases List.mem_cons.mp hx with rfl | hx2
      · rw [ht] at hv
        injection hv with hv
        rw [← hv]
        refine le_trans hle ?_
        by_cases hlt : t < r
        · rw [if_pos hlt]
        · rw [if_neg hlt]; exact Nat.le_of_not_lt hlt
      · exact hmin x hx2 v hv

/-- C6: daysUntilFirstCertExpires returns the uint32 sentinel for an empty
CA list; returns the absent value exactly when some certificate's
expiration cannot be computed; otherwise returns the minimum of the
per-certificate remaining days (each a uint32, hence bounded by the
sentinel); and returns 5 for certificates expiring in 10, 5 and 30
days. -/
theorem daysUntilFirstCertExpires_spec (snap : SpiffeData) :
    (snap.ca_certs = [] → daysUntilFirstCertExpires snap = some UINT32_MAX) ∧
    (daysUntilFirstCertExpires snap = none ↔
      ∃ c ∈ snap.ca_certs, c.daysUntilExpiration = none) ∧
    (snap.ca_certs ≠ [] →
      (∀ c ∈ snap.ca_certs, (c.daysUntilExpiration).isSome) →
      (∀ c ∈ snap.ca_certs, ∀ v, c.daysUntilExpiration = some v → v ≤ UINT32_MAX) →
      ∃ m, daysUntilFirstCertExpires snap = some m ∧
        (∃ c ∈ snap.ca_certs, c.daysUntilExpiration = some m) ∧
        (∀ c ∈ snap.ca_certs, ∀ v, c.daysUntilExpiration = some v → m ≤ v)) ∧
    daysUntilFirstCertExpires
        ⟨[], [⟨none, false, none, some 10⟩, ⟨none, false, none, some 5⟩,
              ⟨none, false, none, some 30⟩]⟩ = some 5 := by
  refine ⟨?_, ?_, ?_, by decide⟩
  · intro h
    simp [daysUntilFirstCertExpires, h]
  · by_cases h : snap.ca_certs = []
    · simp [daysUntilFirstCertExpires, h]
    · have hE : snap.ca_certs.isEmpty = false := by
        simpa [List.isEmpty_iff] using h
      simp [daysUntilFirstCertExpires, hE, minDaysLoop_eq_none_iff]
  · intro hne hsome hbound
    have hE : snap.ca_certs.isEmpty = false := by
      simpa [List.isEmpty_iff] using hne
    obtain ⟨m, hm, hsrc, _, hmin⟩ := minDaysLoop_min snap.ca_certs UINT32_MAX hsome
    refine ⟨m, by simp [daysUntilFirstCertExpires, hE, hm], ?_, hmin⟩
    rcases hsrc with rfl | h
    · obtain ⟨c, hc⟩ := List.exists_mem_of_ne_nil snap.ca_certs hne
      obtain ⟨v, hv⟩ := Option.isSome_iff_exists.mp (hsome c hc)
      have h1 : UINT32_MAX ≤ v := hmin c hc v hv
      have h2 : v ≤ UINT32_MAX := hbound c hc v hv
      exact ⟨c, hc, by rw [hv, le_antisymm h2 h1]⟩
    · exact h

/-- C6 witness: `daysUntilFirstCertExpires_spec` instantiated at the
10/5/30-day snapshot. -/
theorem daysUntilFirstCertExpires_spec_witness :
    daysUntilFirstCertExpires
        ⟨[], [⟨none, false, none, some 10⟩, ⟨none, false, none, some 5⟩,
              ⟨none, false, none, some 30⟩]⟩ = some 5 :=
  (daysUntilFirstCertExpires_spec
      ⟨[], [⟨none, false, none, some 10⟩, ⟨none, false, none, some 5⟩,
            ⟨none, false, none, some 30⟩]⟩).2.2.2

/-! ### Loader theorems (C1, C7, C8) -/

/-- A certificate whose first `spiffe://` URI SAN matches its enclosing
domain key but whose second one extracts to a different domain. -/
def certCE : Cert :=
  ⟨some [.uri "spiffe://a.org/x", .uri "spiffe://b.org/y"], false, some ⟨false, false⟩, some 1⟩

/-- Decoder resolving the single `x5c` entry of `docCE` to `certCE`. -/
def decCE : String → Option Cert := fun s => if s = "certA" then some certCE else none

/-- A bundle map with one domain `a.org` holding `certCE` under an
`x509-svid` key. -/
def docCE : BundleDoc := ⟨[("a.org", ⟨[⟨"x509-svid", ["certA"]⟩]⟩)]⟩

/-- C1 counterexample: the certificate under domain key `a.org` has a
SPIFFE URI SAN (`spiffe://b.org/y`) whose extracted trust domain `b.org`
differs from the enclosing key, yet loadTrustBundleMap returns a snapshot:
the loader inspects only the first `spiffe://`-prefixed URI SAN of each
certificate, which here matches. -/
theorem loadTrustBundleMap_mismatched_later_san_still_loads :
    (∃ g ∈ certCE.sans.getD [], ∃ v, g = GeneralName.uri v ∧
      spiffePfx.isPrefixOf v.data = true ∧ extractTrustDomain v ≠ "a.org") ∧
    loadTrustBundleMap decCE (some docCE) =
      some ⟨[("a.org", ⟨[certCE], [], false⟩)], [certCE]⟩ := by
  constructor
  · exact ⟨.uri "spiffe://b.org/y", by decide, "spiffe://b.org/y", rfl, by decide, by decide⟩
  · decide

/-- If an `x5c` list contains an entry whose certificate's first
`spiffe://` URI SAN extracts to a domain other than the enclosing key, the
cert loop fails. -/
theorem processCerts_error_of_mismatch (dec : String → Option Cert) (name : String)
    (b : String) (c : Cert) (names : List GeneralName) (v : String)
    (hdec : dec b = some c) (hsans : c.sans = some names)
    (hfirst : firstSpiffeUri names = some v) (hne : extractTrustDomain v ≠ name) :
    ∀ (certs : List String) (st : LoadState), b ∈ certs →
      processCerts dec name st certs = .error () := by
  intro certs
  induction certs with
  | nil => intro st hmem; cases hmem
  | cons b0 rest ih =>
    intro st hmem
    rcases List.mem_cons.mp hmem with rfl | h2
    · have hpc : processCert dec name st b = .error () := by
        simp only [processCert, hdec, hsans, hfirst]
        rw [if_pos (Ne.symm hne)]
      simp [processCerts, hpc]
    · cases hpc : processCert dec name st b0 with
      | error e => cases e; simp [processCerts, hpc]
      | ok st1 =>
        simp only [processCerts, hpc]
        exact ih st1 h2

/-- The same failure propagated through the `keys` loop: a key with
`use = "x509-svid"` containing such an entry fails the domain. -/
theorem processKeys_error_of_mismatch (dec : String → Option Cert) (name : String)
    (b : String) (c : Cert) (names : List GeneralName) (v : String)
    (k : KeyObject) (huse : k.use = "x509-svid") (hb : b ∈ k.x5c)
    (hdec : dec b = some c) (hsans : c.sans = some names)
    (hfirst : firstSpiffeUri names = some v) (hne : extractTrustDomain v ≠ name) :
    ∀ (keys : List KeyObject) (st : LoadState), k ∈ keys →
      processKeys dec name st keys = .error () := by
  intro keys
  induction keys with
  | nil => intro st hmem; cases hmem
  | cons k0 rest ih =>
    intro st hmem
    rcases List.mem_cons.mp hmem with rfl | h2
    · have hcerts := processCerts_error_of_mismatch dec name b c names v hdec hsans hfirst hne
        k.x5c st hb
      simp [processKeys, huse, hcerts]
    · by_cases hu : k0.use = "x509-svid"
      · cases hpc : processCerts dec name st k0.x5c with
        | error e => cases e; simp [processKeys, hu, hpc]
        | ok st1 =>
          simp only [processKeys, hu, if_pos, hpc]
          exact ih st1 h2
      · simp only [processKeys, if_neg hu]
        exact ih st h2

/-- The same failure propagated through the `trust_domains` loop. -/
theorem processDomains_error_of_mismatch (dec : String → Option Cert)
    (name : String) (dobj : DomainObject)
    (b : String) (c : Cert) (names : List GeneralName) (v : String)
    (k : KeyObject) (hk : k ∈ dobj.keys) (huse : k.use = "x509-svid") (hb : b ∈ k.x5c)
    (hdec : dec b = some c) (hsans : c.sans = some names)
    (hfirst : firstSpiffeUri names = some v) (hne : extractTrustDomain v ≠ name) :
    ∀ (doms : List (String × DomainObject)) (st : LoadState), (name, dobj) ∈ doms →
      processDomains dec st doms = .error () := by
  intro doms
  induction doms with
  | nil => intro st hmem; cases hmem
  | cons p0 rest ih =>
    intro st hmem
    rcases List.mem_cons.mp hmem with rfl | h2
    · have hkeysne : dobj.keys.isEmpty = false := by
        cases hkk : dobj.keys with
        | nil => rw [hkk] at hk; cases hk
        | cons a l => rfl
      have hkeys := fun st1 => processKeys_error_of_mismatch dec name b c names v k huse hb
        hdec hsans hfirst hne dobj.keys st1 hk
      simp [processDomains, processDomain, hkeysne, hkeys]
    · cases hpd : processDomain dec st p0.1 p0.2 with
      | error e => cases e; simp [processDomains, hpd]
      | ok st1 =>
        cases p0 with
        | mk n0 d0 =>
          simp only [processDomains, hpd]
          exact ih st1 h2

/-- C1 (amended): if any certificate under an `x509-svid` key of a
domain-object has a first `spiffe://`-prefixed URI SAN whose extracted
trust domain differs from the enclosing key, loadTrustBundleMap returns no
snapshot, and the reload callback leaves the previously installed snapshot
unchanged. -/
theorem loadTrustBundleMap_first_san_mismatch_fails (dec : String → Option Cert)
    (doc : BundleDoc) (current : SpiffeData)
    (h : ∃ p ∈ doc.trust_domains, ∃ k ∈ p.2.keys, k.use = "x509-svid" ∧
        ∃ b ∈ k.x5c, ∃ c, dec b = some c ∧ ∃ names, c.sans = some names ∧
        ∃ v, firstSpiffeUri names = some v ∧ extractTrustDomain v ≠ p.1) :
    loadTrustBundleMap dec (some doc) = none ∧
    onBundleMapFileChanged dec (some doc) current = current := by
  obtain ⟨⟨name, dobj⟩, hp, k, hk, huse, b, hb, c, hdec, names, hsans, v, hfirst, hne⟩ := h
  have hdoms : processDomains dec ⟨[], []⟩ doc.trust_domains = .error () :=
    processDomains_error_of_mismatch dec name dobj b c names v k hk huse hb
      hdec hsans hfirst hne doc.trust_domains ⟨[], []⟩ hp
  have hnel : doc.trust_domains.isEmpty = false := by
    cases hdd : doc.trust_domains with
    | nil => rw [hdd] at hp; cases hp
    | cons a l => rfl
  have hload : loadTrustBundleMap dec (some doc) = none := by
    simp [loadTrustBundleMap, hnel, hdoms]
  exact ⟨hload, by simp [onBundleMapFileChanged, hload]⟩

/-- C1 (amended) witness: the `docCE` bundle map with the domain key
changed to `b.org`, so that the certificate's first SPIFFE URI SAN
(`spiffe://a.org/x`) mismatches; the load fails and the previous snapshot
survives the reload callback. -/
theorem loadTrustBundleMap_first_san_mismatch_fails_witness :
    loadTrustBundleMap decCE (some ⟨[("b.org", ⟨[⟨"x509-svid", ["certA"]⟩]⟩)]⟩) = none ∧
    onBundleMapFileChanged decCE (some ⟨[("b.org", ⟨[⟨"x509-svid", ["certA"]⟩]⟩)]⟩)
      ⟨[("old.org", emptyStore)], []⟩ = ⟨[("old.org", emptyStore)], []⟩ :=
  loadTrustBundleMap_first_san_mismatch_fails decCE
    ⟨[("b.org", ⟨[⟨"x509-svid", ["certA"]⟩]⟩)]⟩ ⟨[("old.org", emptyStore)], []⟩
    ⟨("b.org", ⟨[⟨"x509-svid", ["certA"]⟩]⟩), by decide, ⟨"x509-svid", ["certA"]⟩,
      by decide, rfl, "certA", by decide, certCE, rfl,
      [.uri "spiffe://a.org/x", .uri "spiffe://b.org/y"], rfl,
      "spiffe://a.org/x", rfl, by decide⟩

/-- C7: the loader is a pure function of the parsed document, so two loads
of the same unchanged document yield snapshots with the same domain keys,
the same stores, the same flattened CA list, and identical outcomes for
every subsequent verification. -/
theorem loadTrustBundleMap_deterministic (dec : String → Option Cert)
    (doc : Option BundleDoc) (s1 s2 : SpiffeData)
    (h1 : loadTrustBundleMap dec doc = some s1)
    (h2 : loadTrustBundleMap dec doc = some s2) :
    s1.trust_bundle_stores.map Prod.fst = s2.trust_bundle_stores.map Prod.fst ∧
    s1.trust_bundle_stores = s2.trust_bundle_stores ∧
    s1.ca_certs = s2.ca_certs ∧
    ∀ (env : X509Env) (ae : Bool) (matchers : List (GeneralName → Bool))
      (chain : List Cert),
      doVerifyCertChain env ae matchers s1 chain =
        doVerifyCertChain env ae matchers s2 chain := by
  have hs : s1 = s2 := Option.some.inj (h1.symm.trans h2)
  subst hs
  exact ⟨rfl, rfl, rfl, fun _ _ _ _ => rfl⟩

/-- A self-consistent single-domain certificate for the C7 witness. -/
def certW : Cert := ⟨some [.uri "spiffe://w.org/x"], false, some ⟨false, false⟩, some 7⟩

/-- Decoder for the C7 witness document. -/
def decW : String → Option Cert := fun s => if s = "cw" then some certW else none

/-- The C7 witness document: one domain, one key, one certificate. -/
def docW : BundleDoc := ⟨[("w.org", ⟨[⟨"x509-svid", ["cw"]⟩]⟩)]⟩

/-- The snapshot `docW` loads to. -/
def snapW : SpiffeData := ⟨[("w.org", ⟨[certW], [], false⟩)], [certW]⟩

/-- C7 witness: `loadTrustBundleMap_deterministic` applied to a concrete
successful load. -/
theorem loadTrustBundleMap_deterministic_witness :
    snapW.trust_bundle_stores.map Prod.fst = snapW.trust_bundle_stores.map Prod.fst ∧
    snapW.trust_bundle_stores = snapW.trust_bundle_stores ∧
    snapW.ca_certs = snapW.ca_certs ∧
    ∀ (env : X509Env) (ae : Bool) (matchers : List (GeneralName → Bool))
      (chain : List Cert),
      doVerifyCertChain env ae matchers snapW chain =
        doVerifyCertChain env ae matchers snapW chain :=
  loadTrustBundleMap_deterministic decW (some docW) snapW snapW (by decide) (by decide)

/-- The registered domain names of a static validator state. -/
def staticKeys (st : StaticState) : List String :=
  st.trust_bundle_stores.map Prod.fst

/-- storeFind succeeds exactly on registered keys. -/
theorem storeFind_isSome_iff (k : String) :
    ∀ m : List (String × X509Store), (storeFind k m).isSome = true ↔ k ∈ m.map Prod.fst := by
  intro m
  induction m with
  | nil => simp [storeFind]
  | cons p rest ih =>
    cases p with
    | mk n s =>
      by_cases hn : n = k
      · subst hn
        simp [storeFind]
      · simp [storeFind, hn, ih, Ne.symm hn]

/-- A duplicate among the names still to be processed (relative to the
already registered keys) makes the static constructor loop throw. -/
theorem buildStaticGo_error_of_dup (readPem : String → Option (List PemItem)) :
    ∀ (l : List TrustDomainCfg) (st : StaticState),
      (staticKeys st).Nodup →
      ¬ (staticKeys st ++ l.map TrustDomainCfg.name).Nodup →
      ∃ e, buildStaticGo readPem st l = .error e := by
  intro l
  induction l with
  | nil =>
    intro st hnd habs
    exact absurd (by simpa using hnd) habs
  | cons d rest ih =>
    intro st hnd habs
    by_cases hdup : (storeFind d.name st.trust_bundle_stores).isSome = true
    · exact ⟨"Multiple trust bundles are given for one trust domain for " ++ d.name,
        by simp [buildStaticGo, hdup]⟩
    · have hnm : d.name ∉ staticKeys st := fun hc =>
        hdup ((storeFind_isSome_iff d.name st.trust_bundle_stores).mpr hc)
      cases hrp : readPem d.trust_bundle with
      | none => exact ⟨"Failed to load trusted CA certificate for " ++ d.name,
          by simp [buildStaticGo, hdup, hrp]⟩
      | some items =>
        by_cases hemp : items.isEmpty = true
        · exact ⟨"Failed to load trusted CA certificate for " ++ d.name,
            by simp [buildStaticGo, hdup, hrp, hemp]⟩
        · have hkeys : staticKeys (staticAddDomain st d items) = staticKeys st ++ [d.name] := by
            simp [staticKeys, staticAddDomain]
          have hnd2 : (staticKeys (staticAddDomain st d items)).Nodup := by
            rw [hkeys]
            simp [List.nodup_append, hnd, hnm]
          have habs2 :
              ¬ (staticKeys (staticAddDomain st d items) ++ rest.map TrustDomainCfg.name).Nodup := by
            rw [hkeys, List.append_assoc]
            simpa using habs
          obtain ⟨e, he⟩ := ih (staticAddDomain st d items) hnd2 habs2
          refine ⟨e, ?_⟩
          simp only [buildStaticGo, hdup, hrp, hemp]
          simpa using he

/-- When every configured source reads and parses to a non-empty PEM list,
the error thrown for a duplicate is the "Multiple trust bundles" message
naming a domain that occurs at least twice. -/
theorem buildStaticGo_dup_message (readPem : String → Option (List PemItem)) :
    ∀ (l : List TrustDomainCfg) (st : StaticState),
      (∀ d ∈ l, ∃ items, readPem d.trust_bundle = some items ∧ items ≠ []) →
      (staticKeys st).Nodup →
      ¬ (staticKeys st ++ l.map TrustDomainCfg.name).Nodup →
      ∃ nm, 2 ≤ (staticKeys st ++ l.map TrustDomainCfg.name).count nm ∧
        buildStaticGo readPem st l =
          .error ("Multiple trust bundles are given for one trust domain for " ++ nm) := by
  intro l
  induction l with
  | nil =>
    intro st _ hnd habs
    exact absurd (by simpa using hnd) habs
  | cons d rest ih =>
    intro st hok hnd habs
    by_cases hdup : (storeFind d.name st.trust_bundle_stores).isSome = true
    · refine ⟨d.name, ?_, by simp [buildStaticGo, hdup]⟩
      have h1 : d.name ∈ staticKeys st :=
        (storeFind_isSome_iff d.name st.trust_bundle_stores).mp hdup
      have h2 : 1 ≤ (staticKeys st).count d.name := List.one_le_count_iff.mpr h1
      have h3 : 1 ≤ ((d :: rest).map TrustDomainCfg.name).count d.name := by
        simp [List.count_cons]
      calc 2 = 1 + 1 := rfl
        _ ≤ (staticKeys st).count d.name + ((d :: rest).map TrustDomainCfg.name).count d.name :=
            Nat.add_le_add h2 h3
        _ = (staticKeys st ++ (d :: rest).map TrustDomainCfg.name).count d.name :=
            (List.count_append _ _ _).symm
    · have hnm : d.name ∉ staticKeys st := fun hc =>
        hdup ((storeFind_isSome_iff d.name st.trust_bundle_stores).mpr hc)
      obtain ⟨items, hrp, hne⟩ := hok d (List.mem_cons_self _ _)
      have hemp : items.isEmpty = false := by
        cases items with
        | nil => exact absurd rfl hne
        | cons a b => rfl
      have hkeys : staticKeys (staticAddDomain st d items) = staticKeys st ++ [d.name] := by
        simp [staticKeys, staticAddDomain]
      have hnd2 : (staticKeys (staticAddDomain st d items)).Nodup := by
        rw [hkeys]
        simp [List.nodup_append, hnd, hnm]
      have habs2 :
          ¬ (staticKeys (staticAddDomain st d items) ++ rest.map TrustDomainCfg.name).Nodup := by
        rw [hkeys, List.append_assoc]
        simpa using habs
      obtain ⟨nm, hcount, hres⟩ := ih (staticAddDomain st d items)
        (fun x hx => hok x (List.mem_cons_of_mem _ hx)) hnd2 habs2
      refine ⟨nm, ?_, ?_⟩
      · have : staticKeys (staticAddDomain st d items) ++ rest.map TrustDomainCfg.name =
            staticKeys st ++ (d :: rest).map TrustDomainCfg.name := by
          rw [hkeys, List.append_assoc]
          rfl
        rw [← this]
        exact hcount
      · simp only [buildStaticGo, hdup, hrp, hemp]
        simpa using hres

/-- C8: a static trust-domain list containing two entries with the same
domain name makes construction abort with an error — no snapshot or
partial state results — and, whenever every configured source reads as a
non-empty PEM list, that error is the exception naming a duplicated
domain. -/
theorem static_duplicate_domain_fatal (readPem : String → Option (List PemItem))
    (domains : List TrustDomainCfg)
    (hdup : ¬ (domains.map TrustDomainCfg.name).Nodup) :
    (∃ e, buildStaticTrustBundle readPem domains = .error e) ∧
    ((∀ d ∈ domains, ∃ items, readPem d.trust_bundle = some items ∧ items ≠ []) →
      ∃ nm, 2 ≤ (domains.map TrustDomainCfg.name).count nm ∧
        buildStaticTrustBundle readPem domains =
          .error ("Multiple trust bundles are given for one trust domain for " ++ nm)) := by
  have hinit : (staticKeys ⟨[], [], ""⟩).Nodup := by simp [staticKeys]
  have habs : ¬ (staticKeys ⟨[], [], ""⟩ ++ domains.map TrustDomainCfg.name).Nodup := by
    simpa [staticKeys] using hdup
  constructor
  · exact buildStaticGo_error_of_dup readPem domains ⟨[], [], ""⟩ hinit habs
  · intro hok
    obtain ⟨nm, hcount, hres⟩ :=
      buildStaticGo_dup_message readPem domains ⟨[], [], ""⟩ hok hinit habs
    refine ⟨nm, ?_, hres⟩
    simpa [staticKeys] using hcount

/-- C8 witness: two entries named `a`; construction fails with the
duplicate-domain exception. -/
theorem static_duplicate_domain_fatal_witness :
    (∃ e, buildStaticTrustBundle (fun _ => some [.certEntry ⟨none, true, none, none⟩])
        [⟨"a", "f"⟩, ⟨"a", "g"⟩] = .error e) ∧
    ∃ nm, 2 ≤ ([⟨"a", "f"⟩, ⟨"a", "g"⟩].map TrustDomainCfg.name).count nm ∧
      buildStaticTrustBundle (fun _ => some [.certEntry ⟨none, true, none, none⟩])
          [⟨"a", "f"⟩, ⟨"a", "g"⟩] =
        .error ("Multiple trust bundles are given for one trust domain for " ++ nm) := by
  have h := static_duplicate_domain_fatal (fun _ => some [.certEntry ⟨none, true, none, none⟩])
    [⟨"a", "f"⟩, ⟨"a", "g"⟩] (by decide)
  exact ⟨h.1, h.2 (fun d _ => ⟨[.certEntry ⟨none, true, none, none⟩], rfl, by simp⟩)⟩

end Spiffe
